import Mathlib

/-
Verification of the visibility core of `across_api` (`base/visibility.py`).

The embedding models `VisibilityBase` as a state structure with explicit
`Option`-typed cache fields (the Python code memoizes via `hasattr` probing),
property accessors as state transformers `State → Value × State`, and `get`
as the composed pipeline.  Angular geometry (astropy's `separation`,
`SkyCoord` construction and the FK5 equinox transform) is external to the
repository; it is abstracted as a `GeoModel` record of uninterpreted
functions over an abstract direction type, with angles as rationals
(degrees).  Datetimes are modelled as integers.

numpy semantics that matter here and are modelled explicitly:
  * basic slicing of a provider-owned array yields a *view*;
  * `+=` on boolean arrays is elementwise logical OR, performed in place,
    so it writes through a view into the underlying provider array.
`get` therefore carries an `aliased` flag: when the SAA constraint is
enabled, `self.inconstraint` is a view of the SAA provider's array and the
subsequent in-place ORs are mirrored into `saa_insaacons` by `listSplice`.
-/

namespace AcrossVisibility

/-- Abstract geometry and external helpers.  `sep` is astropy's angular
separation (degrees), `dneg` negation of a cartesian vector, `radec` the
`SkyCoord(ra, dec)` constructor, `precess` the FK5 equinox-of-date transform
at a timestamp, and `roundTime` is `functions.round_time` (modelled from the
spec: round a datetime to the nearest multiple of the given number of
seconds; the repository file for `round_time` is not part of the sources,
and no claim depends on its tie-break). -/
structure GeoModel (Dir : Type) where
  sep : Dir → Dir → ℚ
  dneg : Dir → Dir
  radec : ℚ → ℚ → Dir
  precess : Int → Dir → Dir
  roundTime : Int → Int → Int

/-- Modelled from the spec: the Ephemeris Provider (`EphemBase`, not among
the sources).  It supplies an ordered timestamp grid, per-sample Sun, Moon,
Earth and orbital-pole directions, the per-sample Earth angular radius
(degrees), the `apparent` coordinate-frame flag, optional velocity and pole
cartesian vectors whose presence is flagged by the `velocity` capability
indicator, and the `ephindex` time-to-index lookup. -/
structure Ephem (Dir : Type) where
  timestamp : List Int
  sun : List Dir
  moon : List Dir
  earth : List Dir
  pole : List Dir
  earthsize : List ℚ
  velocity : Bool
  velvec : Option (List Dir)
  polevec : Option (List Dir)
  apparent : Bool
  ephindex : Int → Nat

/-- A visibility (or SAA) window, `[wbegin, wend]` in wall-clock time.
The Python side reads `win[0]`/`win[1]` (and `win.begin`/`win.end`). -/
structure Window where
  wbegin : Int
  wend : Int
deriving DecidableEq, Repr

/-- The target's sky coordinate: a single fixed-frame direction, or (for
apparent-frame ephemerides) one transformed direction per grid sample. -/
inductive SC (Dir : Type) where
  | single : Dir → SC Dir
  | perSample : List Dir → SC Dir

/-- Python slice `l[a:b]` for nonnegative bounds (clamping, never failing). -/
def pyslice {α : Type} (l : List α) (a b : Nat) : List α :=
  (l.drop a).take (b - a)

/-- Write `vals` over positions `[a, a + vals.length)` of `l`: the effect of
assigning through a numpy view that starts at offset `a`. -/
def listSplice {α : Type} (l : List α) (a : Nat) (vals : List α) : List α :=
  l.take a ++ vals ++ l.drop (a + vals.length)

/-- astropy separation of an array of directions from a sky coordinate,
with numpy broadcasting: a single target direction is broadcast, a
per-sample target is combined elementwise. -/
def sepArr {Dir : Type} (M : GeoModel Dir) (vecs : List Dir) : SC Dir → List ℚ
  | SC.single d => vecs.map (fun v => M.sep v d)
  | SC.perSample ds => List.zipWith M.sep vecs ds

/-- The state of one `VisibilityBase` query instance.  The `c_` fields are
the attributes created on first access by the memoizing properties
(`_skycoord`, `_inearthcons`, ...); `none` means the attribute does not
exist yet.  `saa_insaacons` is the SAA provider's memoized full-grid
boolean array (modelled from the spec: `SAABase` owns one precomputed
"inside SAA" array aligned with the ephemeris grid).  `status_warnings`
models the `JobInfo` status object's list of advisory warnings, and
`validate_ok` the outcome of the external `validate_get` check. -/
structure VisState (Dir : Type) where
  ram_cons : Bool
  pole_cons : Bool
  sun_cons : Bool
  moon_cons : Bool
  earth_cons : Bool
  saa_cons : Bool
  earthoccult : ℚ
  moonoccult : ℚ
  sunoccult : ℚ
  ramsize : ℚ
  sunextra : ℚ
  ramextra : ℚ
  earthextra : ℚ
  moonextra : ℚ
  isat : Bool
  ra : ℚ
  dec : ℚ
  tbegin : Int
  tend : Int
  stepsize : Int
  ephem : Ephem Dir
  saa_insaacons : List Bool
  validate_ok : Bool
  entries : List Window
  status_warnings : List String
  inconstraint : List Bool
  c_skycoord : Option (SC Dir)
  c_inearthcons : Option (List Bool)
  c_insuncons : Option (List Bool)
  c_inmooncons : Option (List Bool)
  c_inramcons : Option (List Bool)
  c_inpolecons : Option (List Bool)
  c_ramang : Option (List ℚ)
  c_saa_windows : Option (List Window)

variable {Dir : Type}

/-- `ephstart`: `self.ephem.ephindex(self.begin)`. -/
def ephstart (s : VisState Dir) : Nat := s.ephem.ephindex s.tbegin

/-- `ephstop`: `self.ephem.ephindex(self.end) + 1`. -/
def ephstop (s : VisState Dir) : Nat := s.ephem.ephindex s.tend + 1

/-- `timestamp` property: `self.ephem.timestamp[self.ephstart:self.ephstop]`. -/
def timestamp (s : VisState Dir) : List Int :=
  pyslice s.ephem.timestamp (ephstart s) (ephstop s)

/-- `insaacons` property: `self.saa.insaacons[self.ephstart:self.ephstop]`
(a slice of the provider's array; not separately cached). -/
def insaacons (s : VisState Dir) : List Bool :=
  pyslice s.saa_insaacons (ephstart s) (ephstop s)

/-- The uncached computation of the `skycoord` property: equinox-correct the
fixed RA/Dec per sample when the ephemeris is in apparent coordinates,
else a single fixed-frame direction. -/
def skycoordCompute (M : GeoModel Dir) (s : VisState Dir) : SC Dir :=
  if s.ephem.apparent then
    SC.perSample ((timestamp s).map (fun t => M.precess t (M.radec s.ra s.dec)))
  else
    SC.single (M.radec s.ra s.dec)

/-- `skycoord` property with its `hasattr` memoization. -/
def skycoord (M : GeoModel Dir) (s : VisState Dir) : SC Dir × VisState Dir :=
  match s.c_skycoord with
  | some sc => (sc, s)
  | none =>
      let sc := skycoordCompute M s
      (sc, { s with c_skycoord := some sc })

/-- Body of `inearthcons`: `earthang < earth_cons + earthsize` with
`earth_cons = earthoccult (+ earthextra if not isat)` degrees. -/
def earthBody (M : GeoModel Dir) (s : VisState Dir) (sc : SC Dir) : List Bool :=
  let earthang := sepArr M (pyslice s.ephem.earth (ephstart s) (ephstop s)) sc
  let earth_cons := s.earthoccult + (if !s.isat then s.earthextra else 0)
  List.zipWith (fun ang esz => decide (ang < earth_cons + esz))
    earthang (pyslice s.ephem.earthsize (ephstart s) (ephstop s))

/-- `inearthcons` property with its `hasattr` memoization. -/
def inearthcons (M : GeoModel Dir) (s : VisState Dir) :
    List Bool × VisState Dir :=
  match s.c_inearthcons with
  | some v => (v, s)
  | none =>
      let p := skycoord M s
      let v := earthBody M p.2 p.1
      (v, { p.2 with c_inearthcons := some v })

/-- Body of `insuncons`: `sunang < sunoccult (+ sunextra if not isat)`. -/
def sunBody (M : GeoModel Dir) (s : VisState Dir) (sc : SC Dir) : List Bool :=
  let sunang := sepArr M (pyslice s.ephem.sun (ephstart s) (ephstop s)) sc
  let sun_cons := s.sunoccult + (if !s.isat then s.sunextra else 0)
  sunang.map (fun a => decide (a < sun_cons))

/-- `insuncons` property with its `hasattr` memoization. -/
def insuncons (M : GeoModel Dir) (s : VisState Dir) :
    List Bool × VisState Dir :=
  match s.c_insuncons with
  | some v => (v, s)
  | none =>
      let p := skycoord M s
      let v := sunBody M p.2 p.1
      (v, { p.2 with c_insuncons := some v })

/-- Body of `inmooncons`: `moonang < moonoccult (+ moonextra if not isat)`. -/
def moonBody (M : GeoModel Dir) (s : VisState Dir) (sc : SC Dir) : List Bool :=
  let moonang := sepArr M (pyslice s.ephem.moon (ephstart s) (ephstop s)) sc
  let moon_cons := s.moonoccult + (if !s.isat then s.moonextra else 0)
  moonang.map (fun a => decide (a < moon_cons))

/-- `inmooncons` property with its `hasattr` memoization. -/
def inmooncons (M : GeoModel Dir) (s : VisState Dir) :
    List Bool × VisState Dir :=
  match s.c_inmooncons with
  | some v => (v, s)
  | none =>
      let p := skycoord M s
      let v := moonBody M p.2 p.1
      (v, { p.2 with c_inmooncons := some v })

/-- The angle between the velocity vector and the target (`self.ramang`). -/
def ramAngBody (M : GeoModel Dir) (s : VisState Dir) (sc : SC Dir)
    (vv : List Dir) : List ℚ :=
  sepArr M (pyslice vv (ephstart s) (ephstop s)) sc

/-- `inramcons`: `None` unless `self.ephem.velocity is not False and
self.ephem.velvec is not None`; otherwise the memoized array
`ramang < ramsize (+ ramextra if not isat)`. -/
def inramcons (M : GeoModel Dir) (s : VisState Dir) :
    Option (List Bool) × VisState Dir :=
  if s.ephem.velocity then
    match s.ephem.velvec with
    | none => (none, s)
    | some vv =>
        match s.c_inramcons with
        | some v => (some v, s)
        | none =>
            let p := skycoord M s
            let ramang := ramAngBody M p.2 p.1 vv
            let ram_sz := p.2.ramsize + (if !p.2.isat then p.2.ramextra else 0)
            let v := ramang.map (fun a => decide (a < ram_sz))
            (some v, { p.2 with c_inramcons := some v, c_ramang := some ramang })
  else (none, s)

/-- Body of `inpolecons` given the pole cartesian vectors: blocked where the
distance from the south or the north orbital pole is less than
`earthsize + earthoccult - 90 (+ earthextra if not isat)` degrees. -/
def poleBody (M : GeoModel Dir) (s : VisState Dir) (sc : SC Dir)
    (pv : List Dir) : List Bool :=
  let pole_sz := (pyslice s.ephem.earthsize (ephstart s) (ephstop s)).map
    (fun esz => esz + s.earthoccult - 90 + (if !s.isat then s.earthextra else 0))
  let north_dist := sepArr M (pyslice s.ephem.pole (ephstart s) (ephstop s)) sc
  let south_dist := sepArr M ((pyslice pv (ephstart s) (ephstop s)).map M.dneg) sc
  List.zipWith (fun sn c => (decide (sn.1 < c) || decide (sn.2 < c)))
    (List.zip south_dist north_dist) pole_sz

/-- `inpolecons`: `None` unless `self.ephem.velocity is not False and
self.ephem.polevec is not None`; otherwise the memoized array. -/
def inpolecons (M : GeoModel Dir) (s : VisState Dir) :
    Option (List Bool) × VisState Dir :=
  if s.ephem.velocity then
    match s.ephem.polevec with
    | none => (none, s)
    | some pv =>
        match s.c_inpolecons with
        | some v => (some v, s)
        | none =>
            let p := skycoord M s
            let v := poleBody M p.2 p.1 pv
            (some v, { p.2 with c_inpolecons := some v })
  else (none, s)

/-- Modelled from the spec: `MakeWindowBase.make_windows` (the generic
window utility is not among the sources).  Converts a boolean blocked
series over the grid timestamps into the ordered list of maximal clear
(`false`) runs, each reported as the closed interval from the run's first
to its last timestamp.  `acc` carries the currently open window. -/
def mwGo : List (Int × Bool) → Option (Int × Int) → List Window
  | [], none => []
  | [], some (a, b) => [⟨a, b⟩]
  | (_, true) :: rest, none => mwGo rest none
  | (_, true) :: rest, some (a, b) => ⟨a, b⟩ :: mwGo rest none
  | (t, false) :: rest, none => mwGo rest (some (t, t))
  | (t, false) :: rest, some (a, _) => mwGo rest (some (a, t))

/-- Modelled from the spec: window synthesis over the active grid slice. -/
def make_windows (ts : List Int) (blocked : List Bool) : List Window :=
  mwGo (List.zip ts blocked) none

/-- `saa_windows` property: windows of `[not s for s in self.insaacons]`,
memoized. -/
def saa_windows (s : VisState Dir) : List Window × VisState Dir :=
  match s.c_saa_windows with
  | some v => (v, s)
  | none =>
      let v := make_windows (timestamp s) ((insaacons s).map (fun b => !b))
      (v, { s with c_saa_windows := some v })

/-- `insaa(dttime)`: linear scan of the SAA windows. -/
def insaa (s : VisState Dir) (dttime : Int) : Bool :=
  ((saa_windows s).1).any
    (fun win => decide (win.wbegin ≤ dttime) && decide (dttime ≤ win.wend))

/-- `visible(dttime)`: linear scan of `self.entries` for a window whose
closed interval contains the time. -/
def visible (s : VisState Dir) (dttime : Int) : Bool :=
  s.entries.any
    (fun win => decide (win.wbegin ≤ dttime) && decide (dttime ≤ win.wend))

/-- The in-place `self.inconstraint += arr`.  When `aliased` is set,
`inconstraint` is a view of the SAA provider's array starting at
`ephstart`, so the write lands there as well. -/
def orInto (aliased : Bool) (s : VisState Dir) (arr : List Bool) :
    VisState Dir :=
  let newc := List.zipWith (fun a b => a || b) s.inconstraint arr
  let s2 := { s with inconstraint := newc }
  if aliased then
    { s2 with saa_insaacons := listSplice s2.saa_insaacons (ephstart s2) newc }
  else s2

/-- `self.inconstraint = np.zeros(len(self.timestamp), dtype=bool)`. -/
def initArr (s : VisState Dir) : VisState Dir :=
  { s with inconstraint := List.replicate (timestamp s).length false }

/-- `if self.saa_cons is True: self.inconstraint = self.insaacons`
(the assignment makes `inconstraint` a view of the provider's array). -/
def saaStep (s : VisState Dir) : VisState Dir :=
  if s.saa_cons then { s with inconstraint := insaacons s } else s

/-- `if self.earth_cons is True: self.inconstraint += self.inearthcons`. -/
def earthStep (M : GeoModel Dir) (al : Bool) (s : VisState Dir) : VisState Dir :=
  if s.earth_cons then (fun p => orInto al p.2 p.1) (inearthcons M s) else s

/-- `if self.moon_cons is True: self.inconstraint += self.inmooncons`. -/
def moonStep (M : GeoModel Dir) (al : Bool) (s : VisState Dir) : VisState Dir :=
  if s.moon_cons then (fun p => orInto al p.2 p.1) (inmooncons M s) else s

/-- `if self.sun_cons is True: self.inconstraint += self.insuncons`. -/
def sunStep (M : GeoModel Dir) (al : Bool) (s : VisState Dir) : VisState Dir :=
  if s.sun_cons then (fun p => orInto al p.2 p.1) (insuncons M s) else s

/-- `if self.pole_cons is True and self.inpolecons is not None:
self.inconstraint += self.inpolecons`. -/
def poleStep (M : GeoModel Dir) (al : Bool) (s : VisState Dir) : VisState Dir :=
  if s.pole_cons then
    (fun p => match p.1 with
      | some arr => orInto al p.2 arr
      | none => p.2) (inpolecons M s)
  else s

/-- `if self.ram_cons is True and self.inramcons is not None:
self.inconstraint += self.inramcons`. -/
def ramStep (M : GeoModel Dir) (al : Bool) (s : VisState Dir) : VisState Dir :=
  if s.ram_cons then
    (fun p => match p.1 with
      | some arr => orInto al p.2 arr
      | none => p.2) (inramcons M s)
  else s

/-- The advisory warning `get` attaches when no window is found. -/
def noVisMsg : String := "No visibility for target in given time period."

/-- The first two actions of `get`: round `begin` to the nearest minute and
reset the windows. -/
def visStart (M : GeoModel Dir) (s : VisState Dir) : VisState Dir :=
  { s with tbegin := M.roundTime s.tbegin 60, entries := [] }

/-- `get()`: round `begin`, reset windows, validate, build the combined
constraint array by in-place OR of the enabled constraints, synthesize the
visibility windows, and warn if none exist.  Returns `false` exactly when
validation fails (the Python `return False`). -/
def get (M : GeoModel Dir) (s0 : VisState Dir) : Bool × VisState Dir :=
  let s := visStart M s0
  if s.validate_ok = false then (false, s)
  else
    let al := s.saa_cons
    let s := ramStep M al (poleStep M al (sunStep M al (moonStep M al
      (earthStep M al (saaStep (initArr s))))))
    let s := { s with entries := make_windows (timestamp s) s.inconstraint }
    let s := { s with status_warnings :=
        if s.entries = [] then s.status_warnings ++ [noVisMsg]
        else s.status_warnings }
    (true, s)

/-- `constraint(index)`: classify the cause of blockage at a grid index. -/
def constraint (M : GeoModel Dir) (s : VisState Dir) (index : Nat) : String :=
  if (timestamp s).getD index 0 ≤ s.tbegin ∨ s.tend ≤ (timestamp s).getD index 0
  then "Window"
  else if s.inconstraint.getD index false then
    if (insuncons M s).1.getD index false then "Sun"
    else if (inmooncons M s).1.getD index false then "Moon"
    else if (inearthcons M s).1.getD index false then "Earth"
    else if (insaacons s).getD index false then "SAA"
    else "Unknown"
  else "None"

/-- The Earth constraint array as computed on a fresh instance (no caches):
the value `inearthcons` memoizes. -/
def earthPure (M : GeoModel Dir) (s : VisState Dir) : List Bool :=
  earthBody M s (skycoordCompute M s)

/-- The Sun constraint array as computed on a fresh instance. -/
def sunPure (M : GeoModel Dir) (s : VisState Dir) : List Bool :=
  sunBody M s (skycoordCompute M s)

/-- The Moon constraint array as computed on a fresh instance. -/
def moonPure (M : GeoModel Dir) (s : VisState Dir) : List Bool :=
  moonBody M s (skycoordCompute M s)

/-- The Ram constraint result as computed on a fresh instance:
`none` when velocity data is unavailable. -/
def inramPure (M : GeoModel Dir) (s : VisState Dir) : Option (List Bool) :=
  if s.ephem.velocity then
    match s.ephem.velvec with
    | none => none
    | some vv =>
        some ((ramAngBody M s (skycoordCompute M s) vv).map
          (fun a => decide (a < s.ramsize + (if !s.isat then s.ramextra else 0))))
  else none

/-- The Pole constraint result as computed on a fresh instance:
`none` when the pole vector is unavailable. -/
def inpolePure (M : GeoModel Dir) (s : VisState Dir) : Option (List Bool) :=
  if s.ephem.velocity then
    match s.ephem.polevec with
    | none => none
    | some pv => some (poleBody M s (skycoordCompute M s) pv)
  else none

/-- OR a constraint array into the accumulator when its flag is enabled. -/
def orMaybe (c : Bool) (x arr : List Bool) : List Bool :=
  if c then List.zipWith (fun a b => a || b) x arr else x

/-- OR an optional constraint array in when its flag is enabled and the
array is defined. -/
def orMaybeO (c : Bool) (x : List Bool) (o : Option (List Bool)) : List Bool :=
  match o with
  | some arr => orMaybe c x arr
  | none => x

/-- The array `get` starts from: the SAA slice when the SAA constraint is
enabled, else all-clear zeros. -/
def baseArr (s : VisState Dir) : List Bool :=
  if s.saa_cons then insaacons s
  else List.replicate (timestamp s).length false

/-- The combined constraint array `get` produces, as a pure function of the
query state (after begin-rounding): the SAA slice (or all-clear) OR-ed, in
the order of `get`, with every enabled and defined constraint array. -/
def combined (M : GeoModel Dir) (s : VisState Dir) : List Bool :=
  orMaybeO s.ram_cons
    (orMaybeO s.pole_cons
      (orMaybe s.sun_cons
        (orMaybe s.moon_cons
          (orMaybe s.earth_cons (baseArr s) (earthPure M s))
          (moonPure M s))
        (sunPure M s))
      (inpolePure M s))
    (inramPure M s)

/-- Sample `i` of an optional constraint array; an undefined array
contributes nothing. -/
def optD (o : Option (List Bool)) (i : Nat) : Bool :=
  match o with
  | some a => a.getD i false
  | none => false

/-- A fresh query instance: no memoized attribute exists yet. -/
def fresh (s : VisState Dir) : Bool :=
  s.c_skycoord.isNone && s.c_inearthcons.isNone && s.c_insuncons.isNone &&
  s.c_inmooncons.isNone && s.c_inramcons.isNone && s.c_inpolecons.isNone &&
  s.c_ramang.isNone && s.c_saa_windows.isNone

/-- Grid well-formedness: every provider array is aligned 1:1 with the
ephemeris timestamp grid (numpy would raise a broadcast error otherwise,
and `get` would not succeed). -/
def wf (s : VisState Dir) : Bool :=
  (s.ephem.sun.length == s.ephem.timestamp.length) &&
  (s.ephem.moon.length == s.ephem.timestamp.length) &&
  (s.ephem.earth.length == s.ephem.timestamp.length) &&
  (s.ephem.pole.length == s.ephem.timestamp.length) &&
  (s.ephem.earthsize.length == s.ephem.timestamp.length) &&
  (s.saa_insaacons.length == s.ephem.timestamp.length) &&
  (match s.ephem.velvec with
   | some vv => vv.length == s.ephem.timestamp.length
   | none => true) &&
  (match s.ephem.polevec with
   | some pv => pv.length == s.ephem.timestamp.length
   | none => true)

/-! ### Characterization lemmas for the memoizing accessors -/

/-- `skycoord` always leaves its cache holding the returned value. -/
theorem skycoord_snd_c (M : GeoModel Dir) (s : VisState Dir) :
    (skycoord M s).2.c_skycoord = some (skycoord M s).1 := by
  unfold skycoord
  cases hc : s.c_skycoord <;> simp [hc]

/-- `skycoord` changes nothing but its own cache field. -/
theorem skycoord_snd (M : GeoModel Dir) (s : VisState Dir) :
    (skycoord M s).2 = { s with c_skycoord := some (skycoord M s).1 } := by
  unfold skycoord
  cases hc : s.c_skycoord
  · simp [hc]
  · simp only [hc]
    rw [← hc]

/-- On a miss, `skycoord` returns the computed coordinate. -/
theorem skycoord_fst_none (M : GeoModel Dir) (s : VisState Dir)
    (h : s.c_skycoord = none) : (skycoord M s).1 = skycoordCompute M s := by
  unfold skycoord; simp [h]

/-- On a hit, `skycoord` returns the cache. -/
theorem skycoord_fst_some (M : GeoModel Dir) (s : VisState Dir) (v : SC Dir)
    (h : s.c_skycoord = some v) : (skycoord M s).1 = v := by
  unfold skycoord; simp [h]

/-- A cache that is empty or holds the computed value yields the computed
value. -/
theorem skycoord_fst_inv (M : GeoModel Dir) (s : VisState Dir)
    (h : s.c_skycoord = none ∨ s.c_skycoord = some (skycoordCompute M s)) :
    (skycoord M s).1 = skycoordCompute M s := by
  rcases h with h | h
  · exact skycoord_fst_none M s h
  · exact skycoord_fst_some M s _ h

/-- `inearthcons` on a fresh cache: value and exact state change. -/
theorem inearthcons_eq_of_none (M : GeoModel Dir) (s : VisState Dir)
    (hc : s.c_inearthcons = none)
    (hsk : s.c_skycoord = none ∨ s.c_skycoord = some (skycoordCompute M s)) :
    inearthcons M s = (earthPure M s,
      { s with c_skycoord := some (skycoordCompute M s),
               c_inearthcons := some (earthPure M s) }) := by
  rcases hsk with h | h
  · unfold inearthcons skycoord
    simp only [hc, h]
    rfl
  · unfold inearthcons skycoord
    simp only [hc, h]
    rw [← h]
    rfl

/-- `insuncons` on a fresh cache: value and exact state change. -/
theorem insuncons_eq_of_none (M : GeoModel Dir) (s : VisState Dir)
    (hc : s.c_insuncons = none)
    (hsk : s.c_skycoord = none ∨ s.c_skycoord = some (skycoordCompute M s)) :
    insuncons M s = (sunPure M s,
      { s with c_skycoord := some (skycoordCompute M s),
               c_insuncons := some (sunPure M s) }) := by
  rcases hsk with h | h
  · unfold insuncons skycoord
    simp only [hc, h]
    rfl
  · unfold insuncons skycoord
    simp only [hc, h]
    rw [← h]
    rfl

/-- `inmooncons` on a fresh cache: value and exact state change. -/
theorem inmooncons_eq_of_none (M : GeoModel Dir) (s : VisState Dir)
    (hc : s.c_inmooncons = none)
    (hsk : s.c_skycoord = none ∨ s.c_skycoord = some (skycoordCompute M s)) :
    inmooncons M s = (moonPure M s,
      { s with c_skycoord := some (skycoordCompute M s),
               c_inmooncons := some (moonPure M s) }) := by
  rcases hsk with h | h
  · unfold inmooncons skycoord
    simp only [hc, h]
    rfl
  · unfold inmooncons skycoord
    simp only [hc, h]
    rw [← h]
    rfl

/-- `inramcons` is `None` and has no effect when velocity data is absent. -/
theorem inramcons_undef (M : GeoModel Dir) (s : VisState Dir)
    (h : s.ephem.velocity = false ∨ s.ephem.velvec = none) :
    inramcons M s = (none, s) := by
  rcases h with h | h
  · unfold inramcons; simp [h]
  · unfold inramcons; simp [h]

/-- `inramPure` is `none` exactly when velocity data is absent. -/
theorem inramPure_undef (M : GeoModel Dir) (s : VisState Dir)
    (h : s.ephem.velocity = false ∨ s.ephem.velvec = none) :
    inramPure M s = none := by
  rcases h with h | h
  · unfold inramPure; simp [h]
  · unfold inramPure; simp [h]

/-- `inramcons` on a fresh cache with velocity data: value and state. -/
theorem inramcons_eq_of_none (M : GeoModel Dir) (s : VisState Dir)
    (vv : List Dir) (hvel : s.ephem.velocity = true)
    (hvv : s.ephem.velvec = some vv) (hc : s.c_inramcons = none)
    (hsk : s.c_skycoord = none ∨ s.c_skycoord = some (skycoordCompute M s)) :
    inramcons M s =
      (some ((ramAngBody M s (skycoordCompute M s) vv).map
          (fun a => decide (a < s.ramsize + (if !s.isat then s.ramextra else 0)))),
       { s with c_skycoord := some (skycoordCompute M s),
                c_inramcons := some ((ramAngBody M s (skycoordCompute M s) vv).map
                  (fun a => decide (a < s.ramsize + (if !s.isat then s.ramextra else 0)))),
                c_ramang := some (ramAngBody M s (skycoordCompute M s) vv) }) := by
  rcases hsk with h | h
  · unfold inramcons skycoord
    simp only [hvel, hvv, hc, h]
    rfl
  · unfold inramcons skycoord
    simp only [hvel, hvv, hc, h]
    rw [← h]
    rfl

/-- With velocity data present, `inramPure` is the ram constraint array. -/
theorem inramPure_def (M : GeoModel Dir) (s : VisState Dir)
    (vv : List Dir) (hvel : s.ephem.velocity = true)
    (hvv : s.ephem.velvec = some vv) :
    inramPure M s = some ((ramAngBody M s (skycoordCompute M s) vv).map
      (fun a => decide (a < s.ramsize + (if !s.isat then s.ramextra else 0)))) := by
  unfold inramPure
  simp [hvel, hvv]

/-- `inpolecons` is `None` and has no effect when velocity or pole data is
absent. -/
theorem inpolecons_undef (M : GeoModel Dir) (s : VisState Dir)
    (h : s.ephem.velocity = false ∨ s.ephem.polevec = none) :
    inpolecons M s = (none, s) := by
  rcases h with h | h
  · unfold inpolecons; simp [h]
  · unfold inpolecons; simp [h]

/-- `inpolePure` is `none` exactly when velocity or pole data is absent. -/
theorem inpolePure_undef (M : GeoModel Dir) (s : VisState Dir)
    (h : s.ephem.velocity = false ∨ s.ephem.polevec = none) :
    inpolePure M s = none := by
  rcases h with h | h
  · unfold inpolePure; simp [h]
  · unfold inpolePure; simp [h]

/-- `inpolecons` on a fresh cache with pole data: value and state. -/
theorem inpolecons_eq_of_none (M : GeoModel Dir) (s : VisState Dir)
    (pv : List Dir) (hvel : s.ephem.velocity = true)
    (hpv : s.ephem.polevec = some pv) (hc : s.c_inpolecons = none)
    (hsk : s.c_skycoord = none ∨ s.c_skycoord = some (skycoordCompute M s)) :
    inpolecons M s = (some (poleBody M s (skycoordCompute M s) pv),
      { s with c_skycoord := some (skycoordCompute M s),
               c_inpolecons := some (poleBody M s (skycoordCompute M s) pv) }) := by
  rcases hsk with h | h
  · unfold inpolecons skycoord
    simp only [hvel, hpv, hc, h]
    rfl
  · unfold inpolecons skycoord
    simp only [hvel, hpv, hc, h]
    rw [← h]
    rfl

/-- With pole data present, `inpolePure` is the pole constraint array. -/
theorem inpolePure_def (M : GeoModel Dir) (s : VisState Dir)
    (pv : List Dir) (hvel : s.ephem.velocity = true)
    (hpv : s.ephem.polevec = some pv) :
    inpolePure M s = some (poleBody M s (skycoordCompute M s) pv) := by
  unfold inpolePure
  simp [hvel, hpv]

/-- The in-place OR, written as a single record update. -/
theorem orInto_eq (al : Bool) (s : VisState Dir) (arr : List Bool) :
    orInto al s arr =
      { s with inconstraint := List.zipWith (fun a b => a || b) s.inconstraint arr,
               saa_insaacons := if al then
                   listSplice s.saa_insaacons (ephstart s)
                     (List.zipWith (fun a b => a || b) s.inconstraint arr)
                 else s.saa_insaacons } := by
  unfold orInto
  cases al <;> simp [ephstart]

/-! ### The `get` pipeline, one step at a time -/

/-- `saaStep ∘ initArr` loads the SAA slice (or an all-clear array). -/
theorem saaStep_initArr (v : VisState Dir) :
    saaStep (initArr v) = { v with inconstraint := baseArr v } := by
  obtain ⟨rc, pc, suc, mc, ec, sac, eo, mo, so, rs, sxe, rxe, exe, mxe, isa,
    ra0, dec0, tb, te, ss, eph, saa0, vo, ent, sw, inc, csk, cie, cis, cim,
    cir, cip, cra0, csw⟩ := v
  cases sac <;> rfl

/-- The skycoord cache is empty or holds the computed coordinate. -/
def SkyOK (M : GeoModel Dir) (u : VisState Dir) : Prop :=
  u.c_skycoord = none ∨ u.c_skycoord = some (skycoordCompute M u)

/-- Fields and derived values the Earth step does not disturb. -/
theorem earthStep_frame (M : GeoModel Dir) (al : Bool) (u : VisState Dir) :
    (earthStep M al u).ram_cons = u.ram_cons ∧
    (earthStep M al u).pole_cons = u.pole_cons ∧
    (earthStep M al u).sun_cons = u.sun_cons ∧
    (earthStep M al u).moon_cons = u.moon_cons ∧
    (earthStep M al u).earth_cons = u.earth_cons ∧
    (earthStep M al u).saa_cons = u.saa_cons ∧
    (earthStep M al u).c_insuncons = u.c_insuncons ∧
    (earthStep M al u).c_inmooncons = u.c_inmooncons ∧
    (earthStep M al u).c_inramcons = u.c_inramcons ∧
    (earthStep M al u).c_inpolecons = u.c_inpolecons ∧
    (earthStep M al u).entries = u.entries ∧
    (earthStep M al u).status_warnings = u.status_warnings ∧
    (earthStep M al u).tbegin = u.tbegin ∧
    (earthStep M al u).tend = u.tend ∧
    (earthStep M al u).ephem = u.ephem ∧
    (earthStep M al u).validate_ok = u.validate_ok ∧
    timestamp (earthStep M al u) = timestamp u ∧
    earthPure M (earthStep M al u) = earthPure M u ∧
    moonPure M (earthStep M al u) = moonPure M u ∧
    sunPure M (earthStep M al u) = sunPure M u ∧
    inpolePure M (earthStep M al u) = inpolePure M u ∧
    inramPure M (earthStep M al u) = inramPure M u := by
  obtain ⟨rc, pc, suc, mc, ec, sac, eo, mo, so, rs, sxe, rxe, exe, mxe, isa,
    ra0, dec0, tb, te, ss, eph, saa0, vo, ent, sw, inc, csk, cie, cis, cim,
    cir, cip, cra0, csw⟩ := u
  cases ec <;> cases cie <;> cases csk <;> cases al <;>
    exact ⟨rfl, rfl, rfl, rfl, rfl, rfl, rfl, rfl, rfl, rfl, rfl, rfl, rfl,
      rfl, rfl, rfl, rfl, rfl, rfl, rfl, rfl, rfl⟩

/-- The Earth step preserves the skycoord-cache invariant. -/
theorem earthStep_skyOK (M : GeoModel Dir) (al : Bool) (u : VisState Dir)
    (h : SkyOK M u) : SkyOK M (earthStep M al u) := by
  obtain ⟨rc, pc, suc, mc, ec, sac, eo, mo, so, rs, sxe, rxe, exe, mxe, isa,
    ra0, dec0, tb, te, ss, eph, saa0, vo, ent, sw, inc, csk, cie, cis, cim,
    cir, cip, cra0, csw⟩ := u
  rcases h with h | h
  · dsimp only at h
    subst h
    cases ec <;> cases cie <;> cases al <;>
      first
        | exact Or.inl rfl
        | exact Or.inr rfl
  · dsimp only at h
    rw [SkyOK, h]
    cases ec <;> cases cie <;> cases al <;> exact Or.inr rfl

/-- Value of the combined array after the Earth step. -/
theorem earthStep_incon (M : GeoModel Dir) (al : Bool) (u : VisState Dir)
    (h : SkyOK M u) (hc : u.c_inearthcons = none) :
    (earthStep M al u).inconstraint =
      orMaybe u.earth_cons u.inconstraint (earthPure M u) := by
  obtain ⟨rc, pc, suc, mc, ec, sac, eo, mo, so, rs, sxe, rxe, exe, mxe, isa,
    ra0, dec0, tb, te, ss, eph, saa0, vo, ent, sw, inc, csk, cie, cis, cim,
    cir, cip, cra0, csw⟩ := u
  dsimp only at hc
  subst hc
  rcases h with h | h <;> dsimp only at h
  · subst h
    cases ec <;> cases al <;> rfl
  · rw [h]
    cases ec <;> cases al <;> rfl

/-- Fields and derived values the Moon step does not disturb. -/
theorem moonStep_frame (M : GeoModel Dir) (al : Bool) (u : VisState Dir) :
    (moonStep M al u).ram_cons = u.ram_cons ∧
    (moonStep M al u).pole_cons = u.pole_cons ∧
    (moonStep M al u).sun_cons = u.sun_cons ∧
    (moonStep M al u).moon_cons = u.moon_cons ∧
    (moonStep M al u).earth_cons = u.earth_cons ∧
    (moonStep M al u).saa_cons = u.saa_cons ∧
    (moonStep M al u).c_inearthcons = u.c_inearthcons ∧
    (moonStep M al u).c_insuncons = u.c_insuncons ∧
    (moonStep M al u).c_inramcons = u.c_inramcons ∧
    (moonStep M al u).c_inpolecons = u.c_inpolecons ∧
    (moonStep M al u).entries = u.entries ∧
    (moonStep M al u).status_warnings = u.status_warnings ∧
    (moonStep M al u).tbegin = u.tbegin ∧
    (moonStep M al u).tend = u.tend ∧
    (moonStep M al u).ephem = u.ephem ∧
    (moonStep M al u).validate_ok = u.validate_ok ∧
    timestamp (moonStep M al u) = timestamp u ∧
    earthPure M (moonStep M al u) = earthPure M u ∧
    moonPure M (moonStep M al u) = moonPure M u ∧
    sunPure M (moonStep M al u) = sunPure M u ∧
    inpolePure M (moonStep M al u) = inpolePure M u ∧
    inramPure M (moonStep M al u) = inramPure M u := by
  obtain ⟨rc, pc, suc, mc, ec, sac, eo, mo, so, rs, sxe, rxe, exe, mxe, isa,
    ra0, dec0, tb, te, ss, eph, saa0, vo, ent, sw, inc, csk, cie, cis, cim,
    cir, cip, cra0, csw⟩ := u
  cases mc <;> cases cim <;> cases csk <;> cases al <;>
    exact ⟨rfl, rfl, rfl, rfl, rfl, rfl, rfl, rfl, rfl, rfl, rfl, rfl, rfl, rfl, rfl, rfl, rfl, rfl, rfl, rfl, rfl, rfl⟩

/-- The Moon step preserves the skycoord-cache invariant. -/
theorem moonStep_skyOK (M : GeoModel Dir) (al : Bool) (u : VisState Dir)
    (h : SkyOK M u) : SkyOK M (moonStep M al u) := by
  obtain ⟨rc, pc, suc, mc, ec, sac, eo, mo, so, rs, sxe, rxe, exe, mxe, isa,
    ra0, dec0, tb, te, ss, eph, saa0, vo, ent, sw, inc, csk, cie, cis, cim,
    cir, cip, cra0, csw⟩ := u
  rcases h with h | h
  · dsimp only at h
    subst h
    cases mc <;> cases cim <;> cases al <;>
      first
        | exact Or.inl rfl
        | exact Or.inr rfl
  · dsimp only at h
    rw [SkyOK, h]
    cases mc <;> cases cim <;> cases al <;> exact Or.inr rfl

/-- Value of the combined array after the Moon step. -/
theorem moonStep_incon (M : GeoModel Dir) (al : Bool) (u : VisState Dir)
    (h : SkyOK M u) (hc : u.c_inmooncons = none) :
    (moonStep M al u).inconstraint =
      orMaybe u.moon_cons u.inconstraint (moonPure M u) := by
  obtain ⟨rc, pc, suc, mc, ec, sac, eo, mo, so, rs, sxe, rxe, exe, mxe, isa,
    ra0, dec0, tb, te, ss, eph, saa0, vo, ent, sw, inc, csk, cie, cis, cim,
    cir, cip, cra0, csw⟩ := u
  dsimp only at hc
  subst hc
  rcases h with h | h <;> dsimp only at h
  · subst h
    cases mc <;> cases al <;> rfl
  · rw [h]
    cases mc <;> cases al <;> rfl

/-- Fields and derived values the Sun step does not disturb. -/
theorem sunStep_frame (M : GeoModel Dir) (al : Bool) (u : VisState Dir) :
    (sunStep M al u).ram_cons = u.ram_cons ∧
    (sunStep M al u).pole_cons = u.pole_cons ∧
    (sunStep M al u).sun_cons = u.sun_cons ∧
    (sunStep M al u).moon_cons = u.moon_cons ∧
    (sunStep M al u).earth_cons = u.earth_cons ∧
    (sunStep M al u).saa_cons = u.saa_cons ∧
    (sunStep M al u).c_inearthcons = u.c_inearthcons ∧
    (sunStep M al u).c_inmooncons = u.c_inmooncons ∧
    (sunStep M al u).c_inramcons = u.c_inramcons ∧
    (sunStep M al u).c_inpolecons = u.c_inpolecons ∧
    (sunStep M al u).entries = u.entries ∧
    (sunStep M al u).status_warnings = u.status_warnings ∧
    (sunStep M al u).tbegin = u.tbegin ∧
    (sunStep M al u).tend = u.tend ∧
    (sunStep M al u).ephem = u.ephem ∧
    (sunStep M al u).validate_ok = u.validate_ok ∧
    timestamp (sunStep M al u) = timestamp u ∧
    earthPure M (sunStep M al u) = earthPure M u ∧
    moonPure M (sunStep M al u) = moonPure M u ∧
    sunPure M (sunStep M al u) = sunPure M u ∧
    inpolePure M (sunStep M al u) = inpolePure M u ∧
    inramPure M (sunStep M al u) = inramPure M u := by
  obtain ⟨rc, pc, suc, mc, ec, sac, eo, mo, so, rs, sxe, rxe, exe, mxe, isa,
    ra0, dec0, tb, te, ss, eph, saa0, vo, ent, sw, inc, csk, cie, cis, cim,
    cir, cip, cra0, csw⟩ := u
  cases suc <;> cases cis <;> cases csk <;> cases al <;>
    exact ⟨rfl, rfl, rfl, rfl, rfl, rfl, rfl, rfl, rfl, rfl, rfl, rfl, rfl, rfl, rfl, rfl, rfl, rfl, rfl, rfl, rfl, rfl⟩

/-- The Sun step preserves the skycoord-cache invariant. -/
theorem sunStep_skyOK (M : GeoModel Dir) (al : Bool) (u : VisState Dir)
    (h : SkyOK M u) : SkyOK M (sunStep M al u) := by
  obtain ⟨rc, pc, suc, mc, ec, sac, eo, mo, so, rs, sxe, rxe, exe, mxe, isa,
    ra0, dec0, tb, te, ss, eph, saa0, vo, ent, sw, inc, csk, cie, cis, cim,
    cir, cip, cra0, csw⟩ := u
  rcases h with h | h
  · dsimp only at h
    subst h
    cases suc <;> cases cis <;> cases al <;>
      first
        | exact Or.inl rfl
        | exact Or.inr rfl
  · dsimp only at h
    rw [SkyOK, h]
    cases suc <;> cases cis <;> cases al <;> exact Or.inr rfl

/-- Value of the combined array after the Sun step. -/
theorem sunStep_incon (M : GeoModel Dir) (al : Bool) (u : VisState Dir)
    (h : SkyOK M u) (hc : u.c_insuncons = none) :
    (sunStep M al u).inconstraint =
      orMaybe u.sun_cons u.inconstraint (sunPure M u) := by
  obtain ⟨rc, pc, suc, mc, ec, sac, eo, mo, so, rs, sxe, rxe, exe, mxe, isa,
    ra0, dec0, tb, te, ss, eph, saa0, vo, ent, sw, inc, csk, cie, cis, cim,
    cir, cip, cra0, csw⟩ := u
  dsimp only at hc
  subst hc
  rcases h with h | h <;> dsimp only at h
  · subst h
    cases suc <;> cases al <;> rfl
  · rw [h]
    cases suc <;> cases al <;> rfl

/-- Fields and derived values the Pole step does not disturb. -/
theorem poleStep_frame (M : GeoModel Dir) (al : Bool) (u : VisState Dir) :
    (poleStep M al u).ram_cons = u.ram_cons ∧
    (poleStep M al u).pole_cons = u.pole_cons ∧
    (poleStep M al u).sun_cons = u.sun_cons ∧
    (poleStep M al u).moon_cons = u.moon_cons ∧
    (poleStep M al u).earth_cons = u.earth_cons ∧
    (poleStep M al u).saa_cons = u.saa_cons ∧
    (poleStep M al u).c_inearthcons = u.c_inearthcons ∧
    (poleStep M al u).c_insuncons = u.c_insuncons ∧
    (poleStep M al u).c_inmooncons = u.c_inmooncons ∧
    (poleStep M al u).c_inramcons = u.c_inramcons ∧
    (poleStep M al u).entries = u.entries ∧
    (poleStep M al u).status_warnings = u.status_warnings ∧
    (poleStep M al u).tbegin = u.tbegin ∧
    (poleStep M al u).tend = u.tend ∧
    (poleStep M al u).ephem = u.ephem ∧
    (poleStep M al u).validate_ok = u.validate_ok ∧
    timestamp (poleStep M al u) = timestamp u ∧
    earthPure M (poleStep M al u) = earthPure M u ∧
    moonPure M (poleStep M al u) = moonPure M u ∧
    sunPure M (poleStep M al u) = sunPure M u ∧
    inpolePure M (poleStep M al u) = inpolePure M u ∧
    inramPure M (poleStep M al u) = inramPure M u := by
  obtain ⟨rc, pc, suc, mc, ec, sac, eo, mo, so, rs, sxe, rxe, exe, mxe, isa,
    ra0, dec0, tb, te, ss, ⟨ts, sunL, moonL, earthL, poleL, eszL, vel, vvec,
    pvec, app, eidx⟩, saa0, vo, ent, sw, inc, csk, cie, cis, cim,
    cir, cip, cra0, csw⟩ := u
  cases pc <;> cases vel <;> cases pvec <;> cases cip <;> cases csk <;> cases al <;>
    exact ⟨rfl, rfl, rfl, rfl, rfl, rfl, rfl, rfl, rfl, rfl, rfl, rfl, rfl, rfl, rfl, rfl, rfl, rfl, rfl, rfl, rfl, rfl⟩

/-- The Pole step preserves the skycoord-cache invariant. -/
theorem poleStep_skyOK (M : GeoModel Dir) (al : Bool) (u : VisState Dir)
    (h : SkyOK M u) : SkyOK M (poleStep M al u) := by
  obtain ⟨rc, pc, suc, mc, ec, sac, eo, mo, so, rs, sxe, rxe, exe, mxe, isa,
    ra0, dec0, tb, te, ss, ⟨ts, sunL, moonL, earthL, poleL, eszL, vel, vvec,
    pvec, app, eidx⟩, saa0, vo, ent, sw, inc, csk, cie, cis, cim,
    cir, cip, cra0, csw⟩ := u
  rcases h with h | h
  · dsimp only at h
    subst h
    cases pc <;> cases vel <;> cases pvec <;> cases cip <;> cases al <;>
      first
        | exact Or.inl rfl
        | exact Or.inr rfl
  · dsimp only at h
    rw [SkyOK, h]
    cases pc <;> cases vel <;> cases pvec <;> cases cip <;> cases al <;> exact Or.inr rfl

/-- Value of the combined array after the Pole step. -/
theorem poleStep_incon (M : GeoModel Dir) (al : Bool) (u : VisState Dir)
    (h : SkyOK M u) (hc : u.c_inpolecons = none) :
    (poleStep M al u).inconstraint =
      orMaybeO u.pole_cons u.inconstraint (inpolePure M u) := by
  obtain ⟨rc, pc, suc, mc, ec, sac, eo, mo, so, rs, sxe, rxe, exe, mxe, isa,
    ra0, dec0, tb, te, ss, ⟨ts, sunL, moonL, earthL, poleL, eszL, vel, vvec,
    pvec, app, eidx⟩, saa0, vo, ent, sw, inc, csk, cie, cis, cim,
    cir, cip, cra0, csw⟩ := u
  dsimp only at hc
  subst hc
  rcases h with h | h <;> dsimp only at h
  · subst h
    cases pc <;> cases vel <;> cases pvec <;> cases al <;> rfl
  · rw [h]
    cases pc <;> cases vel <;> cases pvec <;> cases al <;> rfl

/-- Fields and derived values the Ram step does not disturb. -/
theorem ramStep_frame (M : GeoModel Dir) (al : Bool) (u : VisState Dir) :
    (ramStep M al u).ram_cons = u.ram_cons ∧
    (ramStep M al u).pole_cons = u.pole_cons ∧
    (ramStep M al u).sun_cons = u.sun_cons ∧
    (ramStep M al u).moon_cons = u.moon_cons ∧
    (ramStep M al u).earth_cons = u.earth_cons ∧
    (ramStep M al u).saa_cons = u.saa_cons ∧
    (ramStep M al u).c_inearthcons = u.c_inearthcons ∧
    (ramStep M al u).c_insuncons = u.c_insuncons ∧
    (ramStep M al u).c_inmooncons = u.c_inmooncons ∧
    (ramStep M al u).c_inpolecons = u.c_inpolecons ∧
    (ramStep M al u).entries = u.entries ∧
    (ramStep M al u).status_warnings = u.status_warnings ∧
    (ramStep M al u).tbegin = u.tbegin ∧
    (ramStep M al u).tend = u.tend ∧
    (ramStep M al u).ephem = u.ephem ∧
    (ramStep M al u).validate_ok = u.validate_ok ∧
    timestamp (ramStep M al u) = timestamp u ∧
    earthPure M (ramStep M al u) = earthPure M u ∧
    moonPure M (ramStep M al u) = moonPure M u ∧
    sunPure M (ramStep M al u) = sunPure M u ∧
    inpolePure M (ramStep M al u) = inpolePure M u ∧
    inramPure M (ramStep M al u) = inramPure M u := by
  obtain ⟨rc, pc, suc, mc, ec, sac, eo, mo, so, rs, sxe, rxe, exe, mxe, isa,
    ra0, dec0, tb, te, ss, ⟨ts, sunL, moonL, earthL, poleL, eszL, vel, vvec,
    pvec, app, eidx⟩, saa0, vo, ent, sw, inc, csk, cie, cis, cim,
    cir, cip, cra0, csw⟩ := u
  cases rc <;> cases vel <;> cases vvec <;> cases cir <;> cases csk <;> cases al <;>
    exact ⟨rfl, rfl, rfl, rfl, rfl, rfl, rfl, rfl, rfl, rfl, rfl, rfl, rfl, rfl, rfl, rfl, rfl, rfl, rfl, rfl, rfl, rfl⟩

/-- The Ram step preserves the skycoord-cache invariant. -/
theorem ramStep_skyOK (M : GeoModel Dir) (al : Bool) (u : VisState Dir)
    (h : SkyOK M u) : SkyOK M (ramStep M al u) := by
  obtain ⟨rc, pc, suc, mc, ec, sac, eo, mo, so, rs, sxe, rxe, exe, mxe, isa,
    ra0, dec0, tb, te, ss, ⟨ts, sunL, moonL, earthL, poleL, eszL, vel, vvec,
    pvec, app, eidx⟩, saa0, vo, ent, sw, inc, csk, cie, cis, cim,
    cir, cip, cra0, csw⟩ := u
  rcases h with h | h
  · dsimp only at h
    subst h
    cases rc <;> cases vel <;> cases vvec <;> cases cir <;> cases al <;>
      first
        | exact Or.inl rfl
        | exact Or.inr rfl
  · dsimp only at h
    rw [SkyOK, h]
    cases rc <;> cases vel <;> cases vvec <;> cases cir <;> cases al <;> exact Or.inr rfl

/-- Value of the combined array after the Ram step. -/
theorem ramStep_incon (M : GeoModel Dir) (al : Bool) (u : VisState Dir)
    (h : SkyOK M u) (hc : u.c_inramcons = none) :
    (ramStep M al u).inconstraint =
      orMaybeO u.ram_cons u.inconstraint (inramPure M u) := by
  obtain ⟨rc, pc, suc, mc, ec, sac, eo, mo, so, rs, sxe, rxe, exe, mxe, isa,
    ra0, dec0, tb, te, ss, ⟨ts, sunL, moonL, earthL, poleL, eszL, vel, vvec,
    pvec, app, eidx⟩, saa0, vo, ent, sw, inc, csk, cie, cis, cim,
    cir, cip, cra0, csw⟩ := u
  dsimp only at hc
  subst hc
  rcases h with h | h <;> dsimp only at h
  · subst h
    cases rc <;> cases vel <;> cases vvec <;> cases al <;> rfl
  · rw [h]
    cases rc <;> cases vel <;> cases vvec <;> cases al <;> rfl

/-- Symbolic execution of the constraint pipeline of `get` on a fresh
query state: the accumulated array is `combined`, and the result state
keeps the query's windows, status, time range and ephemeris. -/
theorem chain_spec (M : GeoModel Dir) (al : Bool) (v : VisState Dir)
    (hsk : v.c_skycoord = none) (hce : v.c_inearthcons = none)
    (hcs : v.c_insuncons = none) (hcm : v.c_inmooncons = none)
    (hcr : v.c_inramcons = none) (hcp : v.c_inpolecons = none) :
    (ramStep M al (poleStep M al (sunStep M al (moonStep M al (earthStep M al
        (saaStep (initArr v))))))).inconstraint = combined M v ∧
    (ramStep M al (poleStep M al (sunStep M al (moonStep M al (earthStep M al
        (saaStep (initArr v))))))).entries = v.entries ∧
    (ramStep M al (poleStep M al (sunStep M al (moonStep M al (earthStep M al
        (saaStep (initArr v))))))).status_warnings = v.status_warnings ∧
    (ramStep M al (poleStep M al (sunStep M al (moonStep M al (earthStep M al
        (saaStep (initArr v))))))).tbegin = v.tbegin ∧
    (ramStep M al (poleStep M al (sunStep M al (moonStep M al (earthStep M al
        (saaStep (initArr v))))))).tend = v.tend ∧
    (ramStep M al (poleStep M al (sunStep M al (moonStep M al (earthStep M al
        (saaStep (initArr v))))))).ephem = v.ephem ∧
    timestamp (ramStep M al (poleStep M al (sunStep M al (moonStep M al
        (earthStep M al (saaStep (initArr v))))))) = timestamp v := by
  set v1 : VisState Dir := saaStep (initArr v) with hv1
  have b1 : v1 = { v with inconstraint := baseArr v } := saaStep_initArr v
  have sk1 : SkyOK M v1 := by rw [b1]; exact Or.inl hsk
  have ce1 : v1.c_inearthcons = none := by rw [b1]; exact hce
  have cm1 : v1.c_inmooncons = none := by rw [b1]; exact hcm
  have cs1 : v1.c_insuncons = none := by rw [b1]; exact hcs
  have cp1 : v1.c_inpolecons = none := by rw [b1]; exact hcp
  have cr1 : v1.c_inramcons = none := by rw [b1]; exact hcr
  -- Earth step
  set v2 : VisState Dir := earthStep M al v1 with hv2
  obtain ⟨f2rc, f2pc, f2suc, f2mc, f2ec, f2sac, f2cs, f2cm, f2cr, f2cp,
    f2ent, f2sw, f2tb, f2te, f2eph, f2vo, f2ts, f2pe, f2pm, f2ps, f2pp,
    f2pr⟩ := earthStep_frame M al v1
  have sk2 : SkyOK M v2 := earthStep_skyOK M al v1 sk1
  have i2 : v2.inconstraint = orMaybe v.earth_cons (baseArr v) (earthPure M v) := by
    rw [hv2, earthStep_incon M al v1 sk1 ce1, b1]
    rfl
  have cm2 : v2.c_inmooncons = none := f2cm.trans cm1
  have cs2 : v2.c_insuncons = none := f2cs.trans cs1
  have cp2 : v2.c_inpolecons = none := f2cp.trans cp1
  have cr2 : v2.c_inramcons = none := f2cr.trans cr1
  -- Moon step
  set v3 : VisState Dir := moonStep M al v2 with hv3
  obtain ⟨f3rc, f3pc, f3suc, f3mc, f3ec, f3sac, f3ce, f3cs, f3cr, f3cp,
    f3ent, f3sw, f3tb, f3te, f3eph, f3vo, f3ts, f3pe, f3pm, f3ps, f3pp,
    f3pr⟩ := moonStep_frame M al v2
  have sk3 : SkyOK M v3 := moonStep_skyOK M al v2 sk2
  have i3 : v3.inconstraint =
      orMaybe v.moon_cons
        (orMaybe v.earth_cons (baseArr v) (earthPure M v)) (moonPure M v) := by
    rw [hv3, moonStep_incon M al v2 sk2 cm2, i2, f2mc, f2pm, b1]
    rfl
  have cs3 : v3.c_insuncons = none := f3cs.trans cs2
  have cp3 : v3.c_inpolecons = none := f3cp.trans cp2
  have cr3 : v3.c_inramcons = none := f3cr.trans cr2
  -- Sun step
  set v4 : VisState Dir := sunStep M al v3 with hv4
  obtain ⟨f4rc, f4pc, f4suc, f4mc, f4ec, f4sac, f4ce, f4cm, f4cr, f4cp,
    f4ent, f4sw, f4tb, f4te, f4eph, f4vo, f4ts, f4pe, f4pm, f4ps, f4pp,
    f4pr⟩ := sunStep_frame M al v3
  have sk4 : SkyOK M v4 := sunStep_skyOK M al v3 sk3
  have i4 : v4.inconstraint =
      orMaybe v.sun_cons
        (orMaybe v.moon_cons
          (orMaybe v.earth_cons (baseArr v) (earthPure M v)) (moonPure M v))
        (sunPure M v) := by
    rw [hv4, sunStep_incon M al v3 sk3 cs3, i3, f3suc, f2suc, f3ps, f2ps, b1]
    rfl
  have cp4 : v4.c_inpolecons = none := f4cp.trans cp3
  have cr4 : v4.c_inramcons = none := f4cr.trans cr3
  -- Pole step
  set v5 : VisState Dir := poleStep M al v4 with hv5
  obtain ⟨f5rc, f5pc, f5suc, f5mc, f5ec, f5sac, f5ce, f5cs, f5cm, f5cr,
    f5ent, f5sw, f5tb, f5te, f5eph, f5vo, f5ts, f5pe, f5pm, f5ps, f5pp,
    f5pr⟩ := poleStep_frame M al v4
  have sk5 : SkyOK M v5 := poleStep_skyOK M al v4 sk4
  have i5 : v5.inconstraint =
      orMaybeO v.pole_cons
        (orMaybe v.sun_cons
          (orMaybe v.moon_cons
            (orMaybe v.earth_cons (baseArr v) (earthPure M v)) (moonPure M v))
          (sunPure M v))
        (inpolePure M v) := by
    rw [hv5, poleStep_incon M al v4 sk4 cp4, i4, f4pc, f3pc, f2pc,
      f4pp, f3pp, f2pp, b1]
    rfl
  have cr5 : v5.c_inramcons = none := f5cr.trans cr4
  -- Ram step
  set v6 : VisState Dir := ramStep M al v5 with hv6
  obtain ⟨f6rc, f6pc, f6suc, f6mc, f6ec, f6sac, f6ce, f6cs, f6cm, f6cp,
    f6ent, f6sw, f6tb, f6te, f6eph, f6vo, f6ts, f6pe, f6pm, f6ps, f6pp,
    f6pr⟩ := ramStep_frame M al v5
  have i6 : v6.inconstraint =
      orMaybeO v.ram_cons
        (orMaybeO v.pole_cons
          (orMaybe v.sun_cons
            (orMaybe v.moon_cons
              (orMaybe v.earth_cons (baseArr v) (earthPure M v)) (moonPure M v))
            (sunPure M v))
          (inpolePure M v))
        (inramPure M v) := by
    rw [hv6, ramStep_incon M al v5 sk5 cr5, i5, f5rc, f4rc, f3rc, f2rc,
      f5pr, f4pr, f3pr, f2pr, b1]
    rfl
  have hbent : v1.entries = v.entries := by rw [b1]
  have hbsw : v1.status_warnings = v.status_warnings := by rw [b1]
  have hbtb : v1.tbegin = v.tbegin := by rw [b1]
  have hbte : v1.tend = v.tend := by rw [b1]
  have hbeph : v1.ephem = v.ephem := by rw [b1]
  have hbts : timestamp v1 = timestamp v := by rw [b1]; rfl
  exact ⟨i6,
    f6ent.trans (f5ent.trans (f4ent.trans (f3ent.trans (f2ent.trans hbent)))),
    f6sw.trans (f5sw.trans (f4sw.trans (f3sw.trans (f2sw.trans hbsw)))),
    f6tb.trans (f5tb.trans (f4tb.trans (f3tb.trans (f2tb.trans hbtb)))),
    f6te.trans (f5te.trans (f4te.trans (f3te.trans (f2te.trans hbte)))),
    f6eph.trans (f5eph.trans (f4eph.trans (f3eph.trans (f2eph.trans hbeph)))),
    f6ts.trans (f5ts.trans (f4ts.trans (f3ts.trans (f2ts.trans hbts))))⟩

/-- Symbolic execution of `get` on a fresh, validated query: it succeeds,
the combined constraint array is `combined`, the window list is synthesized
from it over the active slice, and the advisory warning is appended exactly
when that list is empty. -/
theorem get_spec (M : GeoModel Dir) (s : VisState Dir)
    (hf : fresh s = true) (hv : s.validate_ok = true) :
    (get M s).1 = true ∧
    (get M s).2.inconstraint = combined M (visStart M s) ∧
    (get M s).2.entries =
      make_windows (timestamp (visStart M s)) (combined M (visStart M s)) ∧
    (get M s).2.status_warnings =
      (if make_windows (timestamp (visStart M s)) (combined M (visStart M s)) = []
       then s.status_warnings ++ [noVisMsg] else s.status_warnings) ∧
    (get M s).2.tbegin = M.roundTime s.tbegin 60 ∧
    (get M s).2.tend = s.tend ∧
    (get M s).2.ephem = s.ephem := by
  have hfl := hf
  simp only [fresh, Bool.and_eq_true, Option.isNone_iff_eq_none] at hfl
  obtain ⟨⟨⟨⟨⟨⟨⟨hsk, hce⟩, hcs⟩, hcm⟩, hcr⟩, hcp⟩, hra9⟩, hcw⟩ := hfl
  obtain ⟨ci, cent, csw2, ctb, cte, ceph, cts⟩ :=
    chain_spec M ((visStart M s).saa_cons) (visStart M s) hsk hce hcs hcm hcr hcp
  simp only [get]
  rw [if_neg (by simp [visStart, hv])]
  refine ⟨rfl, ci, ?_, ?_, ctb, cte, ceph⟩
  · dsimp only
    rw [cts, ci]
  · dsimp only
    rw [cts, ci, csw2]
    rfl

/-! ### Elementwise view of the combined array -/

theorem pyslice_length {α : Type} (l : List α) (a b : Nat) :
    (pyslice l a b).length = min (b - a) (l.length - a) := by
  simp [pyslice]

theorem pyslice_length_eq {α β : Type} (l1 : List α) (l2 : List β) (a b : Nat)
    (h : l1.length = l2.length) :
    (pyslice l1 a b).length = (pyslice l2 a b).length := by
  simp [pyslice_length, h]

/-- A separation array against the target coordinate has the length of the
vector slice it was built from. -/
theorem sepArr_sky_length (M : GeoModel Dir) (s : VisState Dir)
    (vecs : List Dir) (h : vecs.length = (timestamp s).length) :
    (sepArr M vecs (skycoordCompute M s)).length = (timestamp s).length := by
  unfold skycoordCompute
  by_cases happ : s.ephem.apparent = true
  · simp [happ, sepArr, h]
  · simp [happ, sepArr, h]

/-- On a well-formed grid, every constraint array spans the active slice. -/
theorem pure_lengths (M : GeoModel Dir) (s : VisState Dir) (hw : wf s = true) :
    (insaacons s).length = (timestamp s).length ∧
    (earthPure M s).length = (timestamp s).length ∧
    (moonPure M s).length = (timestamp s).length ∧
    (sunPure M s).length = (timestamp s).length ∧
    (∀ a, inpolePure M s = some a → a.length = (timestamp s).length) ∧
    (∀ a, inramPure M s = some a → a.length = (timestamp s).length) := by
  simp only [wf, Bool.and_eq_true, beq_iff_eq] at hw
  obtain ⟨⟨⟨⟨⟨⟨⟨hsun, hmoon⟩, hearth⟩, hpole⟩, hesz⟩, hsaa⟩, hvv⟩, hpv⟩ := hw
  have hes : (pyslice s.ephem.earthsize (ephstart s) (ephstop s)).length =
      (timestamp s).length := pyslice_length_eq _ _ _ _ hesz
  refine ⟨pyslice_length_eq _ _ _ _ hsaa, ?_, ?_, ?_, ?_, ?_⟩
  · unfold earthPure earthBody
    rw [List.length_zipWith,
      sepArr_sky_length M s _ (pyslice_length_eq _ _ _ _ hearth), hes,
      Nat.min_self]
  · unfold moonPure moonBody
    rw [List.length_map,
      sepArr_sky_length M s _ (pyslice_length_eq _ _ _ _ hmoon)]
  · unfold sunPure sunBody
    rw [List.length_map,
      sepArr_sky_length M s _ (pyslice_length_eq _ _ _ _ hsun)]
  · intro a ha
    unfold inpolePure at ha
    rcases hvel : s.ephem.velocity with _ | _ <;> rw [hvel] at ha
    · simp at ha
    · rcases hp : s.ephem.polevec with _ | pv <;> rw [hp] at ha
      · simp at ha
      · simp only [if_true, Option.some.injEq] at ha
        rw [hp] at hpv
        simp only [beq_iff_eq] at hpv
        subst ha
        unfold poleBody
        rw [List.length_zipWith, List.length_zip,
          sepArr_sky_length M s _ (by rw [List.length_map]; exact pyslice_length_eq _ _ _ _ hpv),
          sepArr_sky_length M s _ (pyslice_length_eq _ _ _ _ hpole),
          List.length_map, hes, Nat.min_self, Nat.min_self]
  · intro a ha
    unfold inramPure at ha
    rcases hvel : s.ephem.velocity with _ | _ <;> rw [hvel] at ha
    · simp at ha
    · rcases hv2 : s.ephem.velvec with _ | vv <;> rw [hv2] at ha
      · simp at ha
      · simp only [if_true, Option.some.injEq] at ha
        rw [hv2] at hvv
        simp only [beq_iff_eq] at hvv
        subst ha
        unfold ramAngBody
        rw [List.length_map,
          sepArr_sky_length M s _ (pyslice_length_eq _ _ _ _ hvv)]

theorem getD_replicate_false (n i : Nat) :
    (List.replicate n (false : Bool)).getD i false = false := by
  induction n generalizing i with
  | zero => rfl
  | succ k ih =>
      cases i with
      | zero => rfl
      | succ j => exact ih j

theorem getD_zipWith_or (x y : List Bool) (i : Nat) (hi : i < x.length)
    (h : y.length = x.length) :
    (List.zipWith (fun a b => a || b) x y).getD i false =
      (x.getD i false || y.getD i false) := by
  have hz : (List.zipWith (fun a b => a || b) x y).length = x.length := by
    rw [List.length_zipWith, h, Nat.min_self]
  rw [List.getD_eq_getElem _ _ (by rw [hz]; exact hi),
    List.getD_eq_getElem _ _ hi,
    List.getD_eq_getElem _ _ (by rw [h]; exact hi),
    List.getElem_zipWith]

theorem orMaybe_length (c : Bool) (x y : List Bool) (h : y.length = x.length) :
    (orMaybe c x y).length = x.length := by
  cases c <;> simp [orMaybe, h]

theorem orMaybeO_length (c : Bool) (x : List Bool) (o : Option (List Bool))
    (h : ∀ a, o = some a → a.length = x.length) :
    (orMaybeO c x o).length = x.length := by
  cases o with
  | none => rfl
  | some a => exact orMaybe_length c x a (h a rfl)

theorem getD_orMaybe (c : Bool) (x y : List Bool) (i : Nat)
    (hi : i < x.length) (h : y.length = x.length) :
    (orMaybe c x y).getD i false =
      (x.getD i false || (c && y.getD i false)) := by
  cases c
  · simp [orMaybe]
  · simp only [orMaybe, if_true, Bool.true_and]
    exact getD_zipWith_or x y i hi h

theorem getD_orMaybeO (c : Bool) (x : List Bool) (o : Option (List Bool))
    (i : Nat) (hi : i < x.length)
    (h : ∀ a, o = some a → a.length = x.length) :
    (orMaybeO c x o).getD i false =
      (x.getD i false || (c && optD o i)) := by
  cases o with
  | none => simp [orMaybeO, optD]
  | some a => exact getD_orMaybe c x a i hi (h a rfl)

theorem getD_baseArr (v : VisState Dir) (i : Nat)
    (hsaa : (insaacons v).length = (timestamp v).length) :
    (baseArr v).getD i false =
      (v.saa_cons && (insaacons v).getD i false) := by
  unfold baseArr
  cases h : v.saa_cons
  · simp [getD_replicate_false]
  · simp

/-- Elementwise reading of `combined`: each sample of the combined array is
the OR of the enabled (and defined) constraint arrays at that sample. -/
theorem combined_getD (M : GeoModel Dir) (v : VisState Dir) (hw : wf v = true)
    (i : Nat) (hi : i < (timestamp v).length) :
    (combined M v).getD i false =
      ((v.saa_cons && (insaacons v).getD i false) ||
       (v.earth_cons && (earthPure M v).getD i false) ||
       (v.moon_cons && (moonPure M v).getD i false) ||
       (v.sun_cons && (sunPure M v).getD i false) ||
       (v.pole_cons && optD (inpolePure M v) i) ||
       (v.ram_cons && optD (inramPure M v) i)) := by
  obtain ⟨lsaa, le, lm, lsun, lp, lr⟩ := pure_lengths M v hw
  have l0 : (baseArr v).length = (timestamp v).length := by
    unfold baseArr
    cases h : v.saa_cons <;> simp [lsaa]
  have l1 : (orMaybe v.earth_cons (baseArr v) (earthPure M v)).length =
      (timestamp v).length :=
    (orMaybe_length _ _ _ (le.trans l0.symm)).trans l0
  have l2 : (orMaybe v.moon_cons
      (orMaybe v.earth_cons (baseArr v) (earthPure M v)) (moonPure M v)).length =
      (timestamp v).length :=
    (orMaybe_length _ _ _ (lm.trans l1.symm)).trans l1
  have l3 : (orMaybe v.sun_cons (orMaybe v.moon_cons
      (orMaybe v.earth_cons (baseArr v) (earthPure M v)) (moonPure M v))
      (sunPure M v)).length = (timestamp v).length :=
    (orMaybe_length _ _ _ (lsun.trans l2.symm)).trans l2
  have l4 : (orMaybeO v.pole_cons (orMaybe v.sun_cons (orMaybe v.moon_cons
      (orMaybe v.earth_cons (baseArr v) (earthPure M v)) (moonPure M v))
      (sunPure M v)) (inpolePure M v)).length = (timestamp v).length :=
    (orMaybeO_length _ _ _ (fun a ha => (lp a ha).trans l3.symm)).trans l3
  unfold combined
  rw [getD_orMaybeO _ _ _ _ (by rw [l4]; exact hi)
      (fun a ha => (lr a ha).trans l4.symm),
    getD_orMaybeO _ _ _ _ (by rw [l3]; exact hi)
      (fun a ha => (lp a ha).trans l3.symm),
    getD_orMaybe _ _ _ _ (by rw [l2]; exact hi) (lsun.trans l2.symm),
    getD_orMaybe _ _ _ _ (by rw [l1]; exact hi) (lm.trans l1.symm),
    getD_orMaybe _ _ _ _ (by rw [l0]; exact hi) (le.trans l0.symm),
    getD_baseArr v i lsaa]

/-! ### Concrete instances used to evaluate the model -/

/-- A concrete geometry over rational "directions": separation is the
absolute difference. -/
def Mc : GeoModel ℚ where
  sep := fun a b => if a ≤ b then b - a else a - b
  dneg := fun a => -a
  radec := fun r _ => r
  precess := fun _ d => d
  roundTime := fun t _ => t

/-- A three-sample ephemeris without velocity or pole data. -/
def ephc : Ephem ℚ where
  timestamp := [0, 60, 120]
  sun := [100, 100, 100]
  moon := [100, 100, 100]
  earth := [0, 100, 100]
  pole := [100, 100, 100]
  earthsize := [10, 10, 10]
  velocity := false
  velvec := none
  polevec := none
  apparent := false
  ephindex := fun t => if t ≤ 0 then 0 else if t ≤ 60 then 1 else 2

/-- A fresh query over `ephc`: every constraint enabled, Earth blocking the
first sample only, SAA clear everywhere. -/
def cs0 : VisState ℚ where
  ram_cons := true
  pole_cons := true
  sun_cons := true
  moon_cons := true
  earth_cons := true
  saa_cons := true
  earthoccult := 30
  moonoccult := 3
  sunoccult := 45
  ramsize := 15
  sunextra := 1
  ramextra := 1
  earthextra := 1
  moonextra := 1
  isat := false
  ra := 0
  dec := 0
  tbegin := 0
  tend := 120
  stepsize := 60
  ephem := ephc
  saa_insaacons := [false, false, false]
  validate_ok := true
  entries := []
  status_warnings := []
  inconstraint := []
  c_skycoord := none
  c_inearthcons := none
  c_insuncons := none
  c_inmooncons := none
  c_inramcons := none
  c_inpolecons := none
  c_ramang := none
  c_saa_windows := none

/-! ### The claims -/

/-- C1: after a successful `get`, each sample of the combined constraint
array is the logical OR of exactly the per-constraint arrays whose enable
flag is set and which are defined (SAA, Earth, Moon, Sun when enabled;
Pole and Ram only when enabled and their array is not `none`); the
contribution of each constraint is its own term of the OR, so disabling
one never changes another's contribution. -/
theorem C1_combined_is_or_of_enabled (M : GeoModel Dir) (s : VisState Dir)
    (hf : fresh s = true) (hw : wf s = true) (hv : s.validate_ok = true) :
    ∀ i, i < (timestamp (visStart M s)).length →
      (get M s).2.inconstraint.getD i false =
        ((s.saa_cons && (insaacons (visStart M s)).getD i false) ||
         (s.earth_cons && (earthPure M (visStart M s)).getD i false) ||
         (s.moon_cons && (moonPure M (visStart M s)).getD i false) ||
         (s.sun_cons && (sunPure M (visStart M s)).getD i false) ||
         (s.pole_cons && optD (inpolePure M (visStart M s)) i) ||
         (s.ram_cons && optD (inramPure M (visStart M s)) i)) := by
  intro i hi
  rw [(get_spec M s hf hv).2.1, combined_getD M (visStart M s) hw i hi]
  rfl

/-- Witness for C1 at a concrete query and sample index 0. -/
theorem C1_witness :
    (get Mc cs0).2.inconstraint.getD 0 false =
      ((cs0.saa_cons && (insaacons (visStart Mc cs0)).getD 0 false) ||
       (cs0.earth_cons && (earthPure Mc (visStart Mc cs0)).getD 0 false) ||
       (cs0.moon_cons && (moonPure Mc (visStart Mc cs0)).getD 0 false) ||
       (cs0.sun_cons && (sunPure Mc (visStart Mc cs0)).getD 0 false) ||
       (cs0.pole_cons && optD (inpolePure Mc (visStart Mc cs0)) 0) ||
       (cs0.ram_cons && optD (inramPure Mc (visStart Mc cs0)) 0)) :=
  C1_combined_is_or_of_enabled Mc cs0 rfl rfl rfl 0 (by decide)

/-- C2 (code bug): `get` writes through the numpy view.  On `cs0` the SAA
provider's memoized array is `[false, false, false]` before the call and
`[true, false, false]` after it: the Earth constraint has been OR-ed into the SAA
provider's own storage. -/
theorem C2_saa_provider_array_mutated :
    cs0.saa_insaacons = [false, false, false] ∧
    (get Mc cs0).2.saa_insaacons = [true, false, false] ∧
    (get Mc cs0).2.saa_insaacons ≠ cs0.saa_insaacons := by
  refine ⟨rfl, by with_unfolding_all rfl, ?_⟩
  intro h
  rw [show (get Mc cs0).2.saa_insaacons = [true, false, false] from
    by with_unfolding_all rfl] at h
  exact absurd h (by decide)

/-- Counterexample to C3 as stated: at a sample whose timestamp equals the
query's begin time, `constraint` returns the "Window" sentinel although the
timestamp is neither strictly before `begin` nor strictly after `end`. -/
theorem C3_counterexample :
    constraint Mc cs0 0 = "Window" ∧
    ¬((timestamp cs0).getD 0 0 < cs0.tbegin ∨
      cs0.tend < (timestamp cs0).getD 0 0) := by
  exact ⟨by decide, by decide⟩

/-- C3 (amended): `constraint(i)` returns the "Window" sentinel exactly
when the sample's timestamp is less than *or equal to* `begin`, or greater
than *or equal to* `end` (the code compares with `<=` and `>=`, so the
sentinel is returned at exact equality as well). -/
theorem C3_window_sentinel_nonstrict (M : GeoModel Dir) (s : VisState Dir)
    (i : Nat) (hi : i < (timestamp s).length) :
    constraint M s i = "Window" ↔
      ((timestamp s).getD i 0 ≤ s.tbegin ∨
       s.tend ≤ (timestamp s).getD i 0) := by
  unfold constraint
  split
  next h => exact iff_of_true rfl h
  next h =>
    constructor
    · intro heq
      exfalso
      split at heq
      · split at heq
        · exact absurd heq (by decide)
        · split at heq
          · exact absurd heq (by decide)
          · split at heq
            · exact absurd heq (by decide)
            · split at heq
              · exact absurd heq (by decide)
              · exact absurd heq (by decide)
      · exact absurd heq (by decide)
    · intro hco
      exact absurd hco h

/-- Witness for the amended C3 at a concrete in-range index. -/
theorem C3_witness :
    constraint Mc cs0 1 = "Window" ↔
      ((timestamp cs0).getD 1 0 ≤ cs0.tbegin ∨
       cs0.tend ≤ (timestamp cs0).getD 1 0) :=
  C3_window_sentinel_nonstrict Mc cs0 1 (by decide)

/-- C4: at an in-range index, a clear combined sample classifies as "None";
a blocked sample classifies as the first of Sun, Moon, Earth, SAA whose
array is true there, and "Unknown" when none of the four is. -/
theorem C4_classifier_priority (M : GeoModel Dir) (s : VisState Dir) (i : Nat)
    (hin : ¬((timestamp s).getD i 0 ≤ s.tbegin ∨
      s.tend ≤ (timestamp s).getD i 0)) :
    (s.inconstraint.getD i false = false → constraint M s i = "None") ∧
    (s.inconstraint.getD i false = true →
      ((insuncons M s).1.getD i false = true → constraint M s i = "Sun") ∧
      ((insuncons M s).1.getD i false = false →
        (inmooncons M s).1.getD i false = true → constraint M s i = "Moon") ∧
      ((insuncons M s).1.getD i false = false →
        (inmooncons M s).1.getD i false = false →
        (inearthcons M s).1.getD i false = true →
        constraint M s i = "Earth") ∧
      ((insuncons M s).1.getD i false = false →
        (inmooncons M s).1.getD i false = false →
        (inearthcons M s).1.getD i false = false →
        (insaacons s).getD i false = true → constraint M s i = "SAA") ∧
      ((insuncons M s).1.getD i false = false →
        (inmooncons M s).1.getD i false = false →
        (inearthcons M s).1.getD i false = false →
        (insaacons s).getD i false = false →
        constraint M s i = "Unknown")) := by
  refine ⟨fun hc => ?_,
    fun hc => ⟨fun h1 => ?_, fun h1 h2 => ?_, fun h1 h2 h3 => ?_,
      fun h1 h2 h3 h4 => ?_, fun h1 h2 h3 h4 => ?_⟩⟩
  · unfold constraint
    rw [if_neg hin, hc, if_neg (by decide)]
  · unfold constraint
    rw [if_neg hin, hc, if_pos rfl, h1, if_pos rfl]
  · unfold constraint
    rw [if_neg hin, hc, if_pos rfl, h1, if_neg (by decide), h2, if_pos rfl]
  · unfold constraint
    rw [if_neg hin, hc, if_pos rfl, h1, if_neg (by decide), h2,
      if_neg (by decide), h3, if_pos rfl]
  · unfold constraint
    rw [if_neg hin, hc, if_pos rfl, h1, if_neg (by decide), h2,
      if_neg (by decide), h3, if_neg (by decide), h4, if_pos rfl]
  · unfold constraint
    rw [if_neg hin, hc, if_pos rfl, h1, if_neg (by decide), h2,
      if_neg (by decide), h3, if_neg (by decide), h4, if_neg (by decide)]

/-- Witness for C4 at a concrete in-range index. -/
theorem C4_witness :
    (cs0.inconstraint.getD 1 false = false → constraint Mc cs0 1 = "None") ∧
    (cs0.inconstraint.getD 1 false = true →
      ((insuncons Mc cs0).1.getD 1 false = true → constraint Mc cs0 1 = "Sun") ∧
      ((insuncons Mc cs0).1.getD 1 false = false →
        (inmooncons Mc cs0).1.getD 1 false = true →
        constraint Mc cs0 1 = "Moon") ∧
      ((insuncons Mc cs0).1.getD 1 false = false →
        (inmooncons Mc cs0).1.getD 1 false = false →
        (inearthcons Mc cs0).1.getD 1 false = true →
        constraint Mc cs0 1 = "Earth") ∧
      ((insuncons Mc cs0).1.getD 1 false = false →
        (inmooncons Mc cs0).1.getD 1 false = false →
        (inearthcons Mc cs0).1.getD 1 false = false →
        (insaacons cs0).getD 1 false = true → constraint Mc cs0 1 = "SAA") ∧
      ((insuncons Mc cs0).1.getD 1 false = false →
        (inmooncons Mc cs0).1.getD 1 false = false →
        (inearthcons Mc cs0).1.getD 1 false = false →
        (insaacons cs0).getD 1 false = false →
        constraint Mc cs0 1 = "Unknown")) :=
  C4_classifier_priority Mc cs0 1 (by decide)

/-- C10: at an in-range blocked sample where none of the Sun, Moon, Earth
or SAA arrays is true (as when only the pole or ram constraint blocks it),
the classifier returns "Unknown"; it never attributes a sample to the pole
or ram constraint. -/
theorem C10_pole_ram_never_attributed (M : GeoModel Dir) (s : VisState Dir)
    (i : Nat)
    (hin : ¬((timestamp s).getD i 0 ≤ s.tbegin ∨
      s.tend ≤ (timestamp s).getD i 0))
    (hcomb : s.inconstraint.getD i false = true)
    (hsun : (insuncons M s).1.getD i false = false)
    (hmoon : (inmooncons M s).1.getD i false = false)
    (hearth : (inearthcons M s).1.getD i false = false)
    (hsaa : (insaacons s).getD i false = false) :
    constraint M s i = "Unknown" ∧
    ∀ j : Nat, constraint M s j ≠ "Pole" ∧ constraint M s j ≠ "Ram" := by
  refine ⟨?_, fun j => ?_⟩
  · unfold constraint
    rw [if_neg hin, hcomb, if_pos rfl, hsun, if_neg (by decide), hmoon,
      if_neg (by decide), hearth, if_neg (by decide), hsaa,
      if_neg (by decide)]
  unfold constraint
  split
  · exact ⟨by decide, by decide⟩
  · split
    · split
      · exact ⟨by decide, by decide⟩
      · split
        · exact ⟨by decide, by decide⟩
        · split
          · exact ⟨by decide, by decide⟩
          · split
            · exact ⟨by decide, by decide⟩
            · exact ⟨by decide, by decide⟩
    · exact ⟨by decide, by decide⟩

/-- A query state blocked at sample 1 by neither Sun, Moon, Earth nor SAA
(as a pole- or ram-only blockage would leave it). -/
def cs3 : VisState ℚ := { cs0 with inconstraint := [false, true, false] }

/-- Witness for C10 at a concrete in-range blocked sample. -/
theorem C10_witness :
    constraint Mc cs3 1 = "Unknown" ∧
    ∀ j : Nat, constraint Mc cs3 j ≠ "Pole" ∧ constraint Mc cs3 j ≠ "Ram" :=
  C10_pole_ram_never_attributed Mc cs3 1 (by decide) rfl
    (by with_unfolding_all rfl) (by with_unfolding_all rfl)
    (by with_unfolding_all rfl) rfl

/-- C5: when the ephemeris lacks velocity (or pole) data, running `get`
with the ram (or pole) enable flag set produces the same combined array
and window list as running it with the flag cleared, and still succeeds. -/
theorem C5_missing_data_flags_inert (M : GeoModel Dir) (s : VisState Dir)
    (hf : fresh s = true) (hv : s.validate_ok = true) :
    ((s.ephem.velocity = false ∨ s.ephem.velvec = none) →
      ∀ b : Bool,
        (get M { s with ram_cons := b }).1 = true ∧
        (get M { s with ram_cons := b }).2.inconstraint =
          (get M { s with ram_cons := false }).2.inconstraint ∧
        (get M { s with ram_cons := b }).2.entries =
          (get M { s with ram_cons := false }).2.entries) ∧
    ((s.ephem.velocity = false ∨ s.ephem.polevec = none) →
      ∀ b : Bool,
        (get M { s with pole_cons := b }).1 = true ∧
        (get M { s with pole_cons := b }).2.inconstraint =
          (get M { s with pole_cons := false }).2.inconstraint ∧
        (get M { s with pole_cons := b }).2.entries =
          (get M { s with pole_cons := false }).2.entries) := by
  constructor
  · intro hram b
    obtain ⟨g1b, g2b, g3b, _⟩ := get_spec M { s with ram_cons := b } hf hv
    obtain ⟨_, g2f, g3f, _⟩ := get_spec M { s with ram_cons := false } hf hv
    have hcomb :
        combined M (visStart M { s with ram_cons := b }) =
        combined M (visStart M { s with ram_cons := false }) := by
      unfold combined
      rw [inramPure_undef M (visStart M { s with ram_cons := b }) hram,
        inramPure_undef M (visStart M { s with ram_cons := false }) hram]
      rfl
    refine ⟨g1b, ?_, ?_⟩
    · rw [g2b, g2f, hcomb]
    · rw [g3b, g3f, hcomb]
      rfl
  · intro hpole b
    obtain ⟨g1b, g2b, g3b, _⟩ := get_spec M { s with pole_cons := b } hf hv
    obtain ⟨_, g2f, g3f, _⟩ := get_spec M { s with pole_cons := false } hf hv
    have hcomb :
        combined M (visStart M { s with pole_cons := b }) =
        combined M (visStart M { s with pole_cons := false }) := by
      unfold combined
      rw [inpolePure_undef M (visStart M { s with pole_cons := b }) hpole,
        inpolePure_undef M (visStart M { s with pole_cons := false }) hpole]
      rfl
    refine ⟨g1b, ?_, ?_⟩
    · rw [g2b, g2f, hcomb]
    · rw [g3b, g3f, hcomb]
      rfl

/-- Witness for C5: `cs0`'s ephemeris has no velocity data, and enabling
the ram flag changes neither the combined array nor the windows. -/
theorem C5_witness :
    (get Mc { cs0 with ram_cons := true }).1 = true ∧
    (get Mc { cs0 with ram_cons := true }).2.inconstraint =
      (get Mc { cs0 with ram_cons := false }).2.inconstraint ∧
    (get Mc { cs0 with ram_cons := true }).2.entries =
      (get Mc { cs0 with ram_cons := false }).2.entries :=
  (C5_missing_data_flags_inert Mc cs0 rfl rfl).1 (Or.inl rfl) true

/-- Second read of `skycoord` returns the first value, same state. -/
theorem skycoord_idem (M : GeoModel Dir) (s : VisState Dir) :
    skycoord M (skycoord M s).2 = skycoord M s := by
  obtain ⟨rc, pc, suc, mc, ec, sac, eo, mo, so, rs, sxe, rxe, exe, mxe, isa,
    ra0, dec0, tb, te, ss, eph, saa0, vo, ent, sw, inc, csk, cie, cis, cim,
    cir, cip, cra0, csw⟩ := s
  cases csk <;> rfl

/-- Second read of `inearthcons` returns the first value, same state. -/
theorem inearthcons_idem (M : GeoModel Dir) (s : VisState Dir) :
    inearthcons M (inearthcons M s).2 = inearthcons M s := by
  obtain ⟨rc, pc, suc, mc, ec, sac, eo, mo, so, rs, sxe, rxe, exe, mxe, isa,
    ra0, dec0, tb, te, ss, eph, saa0, vo, ent, sw, inc, csk, cie, cis, cim,
    cir, cip, cra0, csw⟩ := s
  cases cie <;> cases csk <;> rfl

/-- Second read of `insuncons` returns the first value, same state. -/
theorem insuncons_idem (M : GeoModel Dir) (s : VisState Dir) :
    insuncons M (insuncons M s).2 = insuncons M s := by
  obtain ⟨rc, pc, suc, mc, ec, sac, eo, mo, so, rs, sxe, rxe, exe, mxe, isa,
    ra0, dec0, tb, te, ss, eph, saa0, vo, ent, sw, inc, csk, cie, cis, cim,
    cir, cip, cra0, csw⟩ := s
  cases cis <;> cases csk <;> rfl

/-- Second read of `inmooncons` returns the first value, same state. -/
theorem inmooncons_idem (M : GeoModel Dir) (s : VisState Dir) :
    inmooncons M (inmooncons M s).2 = inmooncons M s := by
  obtain ⟨rc, pc, suc, mc, ec, sac, eo, mo, so, rs, sxe, rxe, exe, mxe, isa,
    ra0, dec0, tb, te, ss, eph, saa0, vo, ent, sw, inc, csk, cie, cis, cim,
    cir, cip, cra0, csw⟩ := s
  cases cim <;> cases csk <;> rfl

/-- Second read of `inramcons` returns the first value, same state. -/
theorem inramcons_idem (M : GeoModel Dir) (s : VisState Dir) :
    inramcons M (inramcons M s).2 = inramcons M s := by
  obtain ⟨rc, pc, suc, mc, ec, sac, eo, mo, so, rs, sxe, rxe, exe, mxe, isa,
    ra0, dec0, tb, te, ss, ⟨ts, sunL, moonL, earthL, poleL, eszL, vel, vvec,
    pvec, app, eidx⟩, saa0, vo, ent, sw, inc, csk, cie, cis, cim,
    cir, cip, cra0, csw⟩ := s
  cases vel <;> cases vvec <;> cases cir <;> cases csk <;> rfl

/-- Second read of `inpolecons` returns the first value, same state. -/
theorem inpolecons_idem (M : GeoModel Dir) (s : VisState Dir) :
    inpolecons M (inpolecons M s).2 = inpolecons M s := by
  obtain ⟨rc, pc, suc, mc, ec, sac, eo, mo, so, rs, sxe, rxe, exe, mxe, isa,
    ra0, dec0, tb, te, ss, ⟨ts, sunL, moonL, earthL, poleL, eszL, vel, vvec,
    pvec, app, eidx⟩, saa0, vo, ent, sw, inc, csk, cie, cis, cim,
    cir, cip, cra0, csw⟩ := s
  cases vel <;> cases pvec <;> cases cip <;> cases csk <;> rfl

/-- C7: every memoizing accessor is idempotent — a second read returns
exactly the value produced by the first read and leaves the query state
unchanged, for the Earth, Sun, Moon, Ram and Pole constraint arrays and
the target coordinate transform. -/
theorem C7_accessors_idempotent (M : GeoModel Dir) (s : VisState Dir) :
    skycoord M (skycoord M s).2 = skycoord M s ∧
    inearthcons M (inearthcons M s).2 = inearthcons M s ∧
    insuncons M (insuncons M s).2 = insuncons M s ∧
    inmooncons M (inmooncons M s).2 = inmooncons M s ∧
    inramcons M (inramcons M s).2 = inramcons M s ∧
    inpolecons M (inpolecons M s).2 = inpolecons M s :=
  ⟨skycoord_idem M s, inearthcons_idem M s, insuncons_idem M s,
   inmooncons_idem M s, inramcons_idem M s, inpolecons_idem M s⟩

/-- C8: a validated `get` succeeds, records the advisory warning exactly
when the synthesized window list is empty, and records nothing otherwise. -/
theorem C8_empty_windows_warning (M : GeoModel Dir) (s : VisState Dir)
    (hf : fresh s = true) (hv : s.validate_ok = true) :
    (get M s).1 = true ∧
    ((get M s).2.entries = [] →
      (get M s).2.status_warnings = s.status_warnings ++ [noVisMsg]) ∧
    ((get M s).2.entries ≠ [] →
      (get M s).2.status_warnings = s.status_warnings) := by
  obtain ⟨h1, _, h3, h4, _⟩ := get_spec M s hf hv
  refine ⟨h1, fun he => ?_, fun he => ?_⟩
  · rw [h4, if_pos (h3.symm.trans he)]
  · rw [h4, if_neg (fun hmw => he (h3.trans hmw))]

/-- A query whose target is Earth-blocked at every sample. -/
def csb : VisState ℚ :=
  { cs0 with ephem := { ephc with earth := [0, 0, 0] } }

/-- Witness for C8 on a concrete query. -/
theorem C8_witness :
    (get Mc csb).1 = true ∧
    ((get Mc csb).2.entries = [] →
      (get Mc csb).2.status_warnings = csb.status_warnings ++ [noVisMsg]) ∧
    ((get Mc csb).2.entries ≠ [] →
      (get Mc csb).2.status_warnings = csb.status_warnings) :=
  C8_empty_windows_warning Mc csb rfl rfl

/-- C9: `visible(t)` is a linear scan — it is true exactly when the
timestamp lies within the closed interval of some window of the produced
visibility window list, so it agrees with window-list membership at every
timestamp (grid timestamps within the query range included). -/
theorem C9_visible_iff_in_window (s : VisState Dir) (t : Int) :
    visible s t = true ↔
      ∃ w ∈ s.entries, w.wbegin ≤ t ∧ t ≤ w.wend := by
  simp [visible, List.any_eq_true, Bool.and_eq_true, decide_eq_true_eq]

theorem getD_map_of_lt {α β : Type} (f : α → β) (l : List α) (d : α)
    (dz : β) (i : Nat) (hi : i < l.length) :
    (l.map f).getD i dz = f (l.getD i d) := by
  rw [List.getD_eq_getElem _ _ (by simpa using hi),
    List.getD_eq_getElem _ _ hi, List.getElem_map]

theorem getD_zipWith_of_lt {α β γ : Type} (f : α → β → γ) (x : List α)
    (y : List β) (dx : α) (dy : β) (dz : γ) (i : Nat) (hx : i < x.length)
    (hy : i < y.length) :
    (List.zipWith f x y).getD i dz = f (x.getD i dx) (y.getD i dy) := by
  rw [List.getD_eq_getElem _ _ (by rw [List.length_zipWith]; omega),
    List.getD_eq_getElem _ _ hx, List.getD_eq_getElem _ _ hy,
    List.getElem_zipWith]

/-- C6: the pole constraint accessor returns a defined array exactly when
the ephemeris exposes a pole vector (given the spec's capability coupling,
that a pole vector is only present when the `velocity` indicator is set);
when defined, sample `i` is blocked exactly when the separation from the
south or the north orbital-pole direction is below the per-sample Earth
angular radius plus the earth occultation angle minus 90 degrees, plus the
extra margin for non-satellite targets. -/
theorem C6_pole_defined_and_formula (M : GeoModel Dir) (s : VisState Dir)
    (hw : wf s = true)
    (hcpl : s.ephem.polevec = none ∨ s.ephem.velocity = true)
    (hcp : s.c_inpolecons = none) (hsk : s.c_skycoord = none) :
    ((inpolecons M s).1 = none ↔ s.ephem.polevec = none) ∧
    (∀ pv, s.ephem.polevec = some pv →
      (inpolecons M s).1 = some (poleBody M s (skycoordCompute M s) pv) ∧
      ∀ i, i < (timestamp s).length →
        (poleBody M s (skycoordCompute M s) pv).getD i false =
          (decide ((sepArr M ((pyslice pv (ephstart s) (ephstop s)).map M.dneg)
                (skycoordCompute M s)).getD i 0 <
              (pyslice s.ephem.earthsize (ephstart s) (ephstop s)).getD i 0 +
                s.earthoccult - 90 + (if !s.isat then s.earthextra else 0)) ||
           decide ((sepArr M (pyslice s.ephem.pole (ephstart s) (ephstop s))
                (skycoordCompute M s)).getD i 0 <
              (pyslice s.ephem.earthsize (ephstart s) (ephstop s)).getD i 0 +
                s.earthoccult - 90 + (if !s.isat then s.earthextra else 0)))) := by
  simp only [wf, Bool.and_eq_true, beq_iff_eq] at hw
  obtain ⟨⟨⟨⟨⟨⟨⟨hsun, hmoon⟩, hearth⟩, hpole⟩, hesz⟩, hsaa⟩, hvv⟩, hpv⟩ := hw
  constructor
  · constructor
    · intro h0
      rcases hp : s.ephem.polevec with _ | pv
      · rfl
      · rcases hcpl with hc1 | hvel
        · exact absurd (hc1.symm.trans hp) (by simp)
        · rw [inpolecons_eq_of_none M s pv hvel hp hcp (Or.inl hsk)] at h0
          exact absurd h0 (by simp)
    · intro h0
      rw [inpolecons_undef M s (Or.inr h0)]
  · intro pv hp
    rcases hcpl with hc1 | hvel
    · exact absurd (hc1.symm.trans hp) (by simp)
    rw [hp] at hpv
    simp only [beq_iff_eq] at hpv
    refine ⟨by rw [inpolecons_eq_of_none M s pv hvel hp hcp (Or.inl hsk)],
      fun i hi => ?_⟩
    have hsl : (sepArr M ((pyslice pv (ephstart s) (ephstop s)).map M.dneg)
        (skycoordCompute M s)).length = (timestamp s).length :=
      sepArr_sky_length M s _
        (by rw [List.length_map]; exact pyslice_length_eq _ _ _ _ hpv)
    have hnl : (sepArr M (pyslice s.ephem.pole (ephstart s) (ephstop s))
        (skycoordCompute M s)).length = (timestamp s).length :=
      sepArr_sky_length M s _ (pyslice_length_eq _ _ _ _ hpole)
    have hel : (pyslice s.ephem.earthsize (ephstart s) (ephstop s)).length =
        (timestamp s).length := pyslice_length_eq _ _ _ _ hesz
    unfold poleBody
    simp only [List.zip]
    rw [getD_zipWith_of_lt _ _ _ ((0 : ℚ), (0 : ℚ)) (0 : ℚ) false i
        (by rw [List.length_zipWith, hsl, hnl]; omega)
        (by rw [List.length_map, hel]; exact hi),
      getD_zipWith_of_lt Prod.mk _ _ (0 : ℚ) (0 : ℚ) ((0 : ℚ), (0 : ℚ)) i
        (by rw [hsl]; exact hi) (by rw [hnl]; exact hi),
      getD_map_of_lt _ _ (0 : ℚ) (0 : ℚ) i (by rw [hel]; exact hi)]

/-- An ephemeris with velocity and pole data, the pole near the target. -/
def ephc2 : Ephem ℚ :=
  { ephc with velocity := true,
              velvec := some [50, 50, 50],
              polevec := some [100, 100, 100] }

/-- A fresh query over `ephc2`. -/
def cs2 : VisState ℚ := { cs0 with ephem := ephc2 }

/-- Witness for C6 on a concrete query with pole data. -/
theorem C6_witness :
    ((inpolecons Mc cs2).1 = none ↔ cs2.ephem.polevec = none) ∧
    (∀ pv, cs2.ephem.polevec = some pv →
      (inpolecons Mc cs2).1 = some (poleBody Mc cs2 (skycoordCompute Mc cs2) pv) ∧
      ∀ i, i < (timestamp cs2).length →
        (poleBody Mc cs2 (skycoordCompute Mc cs2) pv).getD i false =
          (decide ((sepArr Mc ((pyslice pv (ephstart cs2) (ephstop cs2)).map Mc.dneg)
                (skycoordCompute Mc cs2)).getD i 0 <
              (pyslice cs2.ephem.earthsize (ephstart cs2) (ephstop cs2)).getD i 0 +
                cs2.earthoccult - 90 + (if !cs2.isat then cs2.earthextra else 0)) ||
           decide ((sepArr Mc (pyslice cs2.ephem.pole (ephstart cs2) (ephstop cs2))
                (skycoordCompute Mc cs2)).getD i 0 <
              (pyslice cs2.ephem.earthsize (ephstart cs2) (ephstop cs2)).getD i 0 +
                cs2.earthoccult - 90 + (if !cs2.isat then cs2.earthextra else 0)))) :=
  C6_pole_defined_and_formula Mc cs2 rfl (Or.inr rfl) rfl rfl

end AcrossVisibility
